import Mathlib

/-!
Verification of the password strength analyzer (`password_analyzer.py`).

The analyzer is embedded shallowly: Python strings become `String`
(operated on through their `List Char` data), the returned dict becomes
the structure `AnalysisResult` plus the key list `resultKeys` (the source
returns a dict whose key set differs between the empty-password branch
and the normal branch), and the floating-point entropy values become
exact reals (`Real.logb`).  The random draw inside
`generate_excellent_password` is modelled by the relation `GenOutput`
describing every string the generator can possibly return, and the
analyzer's internal call to the generator is modelled by an explicit
parameter `genPw` standing for the string that call returns.
-/

namespace PasswordAnalyzer

/-- Strength labels of the analyzer.  The source uses the strings
"Invalid", "Very Weak", "Weak", "Moderate", "Strong", "Excellent";
each constructor stands for the corresponding string. -/
inductive Strength where
  | Invalid
  | VeryWeak
  | Weak
  | Moderate
  | Strong
  | Excellent
deriving DecidableEq, Repr

/-- ASCII lowercase alphabet, the regex class `[a-z]`. -/
def lowercaseChars : List Char := ("abcdefghijklmnopqrstuvwxyz").data

/-- ASCII uppercase alphabet, the regex class `[A-Z]`. -/
def uppercaseChars : List Char := ("ABCDEFGHIJKLMNOPQRSTUVWXYZ").data

/-- ASCII digits, the regex class `\d` restricted to ASCII. -/
def digitChars : List Char := ("0123456789").data

/-- The analyzer's special-character class, the 20 characters of the
regex class written in the source at line 62 (braces escaped). -/
def specialChars : List Char := ("!@#$%^&*(),.?\":\x7b\x7d|<>").data

/-- Lowercase a single character, modelling `str.lower` on the ASCII
range (every concrete string in the rule tables and in the claims is
ASCII). -/
def toLowerChar (c : Char) : Char :=
  if 65 ≤ c.toNat && c.toNat ≤ 90 then Char.ofNat (c.toNat + 32) else c

/-- Lowercased character data of a string, modelling `password.lower()`. -/
def lowerStr (s : String) : List Char := s.data.map toLowerChar

/-- Does `hay` start with `pat`?  (Plain character-by-character match;
all rule-table patterns are literal strings, so `re.search` reduces to
substring containment.) -/
def headMatches : List Char → List Char → Bool
  | [], _ => true
  | _ :: _, [] => false
  | p :: ps, c :: cs => p == c && headMatches ps cs

/-- Substring containment: `re.search(pat, hay)` for a literal `pat`. -/
def containsSub (pat : List Char) : List Char → Bool
  | [] => headMatches pat []
  | c :: cs => headMatches pat (c :: cs) || containsSub pat cs

/-- Regex word character `\w`: `[a-zA-Z0-9_]`. -/
def isWordChar (c : Char) : Bool :=
  (97 ≤ c.toNat && c.toNat ≤ 122) || (65 ≤ c.toNat && c.toNat ≤ 90) ||
    (48 ≤ c.toNat && c.toNat ≤ 57) || c == '_'

/-- Word boundary `\b` on the left of a match position: start of string
or a non-word character just before. -/
def boundaryBefore : Option Char → Bool
  | none => true
  | some c => !isWordChar c

/-- Word boundary `\b` on the right of a match: end of string or a
non-word character right after. -/
def boundaryAfter : List Char → Bool
  | [] => true
  | c :: _ => !isWordChar c

/-- Does `w` occur at the head of `hay` with a right word boundary? -/
def wordAt (w hay : List Char) : Bool :=
  headMatches w hay && boundaryAfter (hay.drop w.length)

/-- Scan of `re.search(r'\b' + w + r'\b', hay)`: try each position,
remembering the previous character for the left boundary. -/
def wordSearchFrom (w : List Char) : Option Char → List Char → Bool
  | prev, [] => boundaryBefore prev && wordAt w []
  | prev, c :: cs => (boundaryBefore prev && wordAt w (c :: cs)) || wordSearchFrom w (some c) cs

/-- Whole-word containment, modelling the dictionary check's regex. -/
def wordSearch (w hay : List Char) : Bool := wordSearchFrom w none hay

/-- `re.search(r'[a-z]', password)` as a Boolean. -/
def hasLowerB (pw : String) : Bool := pw.data.any (fun c => 97 ≤ c.toNat && c.toNat ≤ 122)

/-- `re.search(r'[A-Z]', password)` as a Boolean. -/
def hasUpperB (pw : String) : Bool := pw.data.any (fun c => 65 ≤ c.toNat && c.toNat ≤ 90)

/-- Python regex `\d` as a Boolean (ASCII digits). -/
def hasDigitB (pw : String) : Bool := pw.data.any (fun c => 48 ≤ c.toNat && c.toNat ≤ 57)

/-- Presence of a character of the analyzer's special class. -/
def hasSpecialB (pw : String) : Bool := pw.data.any (fun c => specialChars.contains c)

/-- Number of the four character classes present (source line 64). -/
def charTypes (pw : String) : Nat :=
  (if hasLowerB pw then 1 else 0) + (if hasUpperB pw then 1 else 0) +
    (if hasDigitB pw then 1 else 0) + (if hasSpecialB pw then 1 else 0)

/-- The `for ... break` scanning loops of the source (lines 73, 81, 89):
return `true` at the first entry satisfying `f` and stop. -/
def firstMatchB (f : String → Bool) : List String → Bool
  | [] => false
  | p :: ps => if f p then true else firstMatchB f ps

/-- The `common_patterns` rule table (source lines 10-15). -/
def commonPatterns : List String :=
  ["password", "admin", "user", "login", "1234", "qwerty",
   "abc", "letmein", "welcome", "monkey", "secret", "love",
   "god", "jesus", "admin123", "pass", "12345", "666",
   "777", "ilove"]

/-- The `dictionary_words` rule table (source lines 16-19). -/
def dictionaryWords : List String :=
  ["apple", "house", "book", "tree", "sun", "moon", "star", "home",
   "work", "play", "dog", "cat", "bird", "fish", "game", "life"]

/-- `self.min_length` (source line 9). -/
def minLength : Nat := 12

/-- `self.max_charset_size = 26 + 26 + 10 + 15` (source line 20). -/
def maxCharsetSize : Nat := 77

/-- Common-pattern loop: first pattern contained in the lowered password. -/
def patternHit (pats : List String) (pw : String) : Bool :=
  firstMatchB (fun p => containsSub p.data (lowerStr pw)) pats

/-- Dictionary loop: first word occurring word-bounded in the lowered
password. -/
def dictHit (words : List String) (pw : String) : Bool :=
  firstMatchB (fun w => wordSearch w.data (lowerStr pw)) words

/-- Personal-info loop: first non-empty entry whose lowercase form is a
substring of the lowered password (`if info and info.lower() in
password.lower()`). -/
def personalHit (infos : List String) (pw : String) : Bool :=
  firstMatchB (fun s => !(s == "") && containsSub (s.data.map toLowerChar) (lowerStr pw)) infos

/-- Regex `(.)\1{2,}`: some character repeated three or more times
consecutively. -/
def hasTripleRepeat : List Char → Bool
  | a :: b :: c :: rest => (a == b && b == c) || hasTripleRepeat (b :: c :: rest)
  | _ => false

/-- Regex `123|abc|xyz` on the lowered password (source line 103). -/
def hasSeq (pw : String) : Bool :=
  containsSub ("123").data (lowerStr pw) || containsSub ("abc").data (lowerStr pw) ||
    containsSub ("xyz").data (lowerStr pw)

/-- Space check `' ' in password` (source line 45). -/
def hasSpace (pw : String) : Bool := pw.data.contains ' '

/-- Charset size from the classes present (source lines 109-110). -/
def charsetSize (pw : String) : Nat :=
  (if hasLowerB pw then 26 else 0) + (if hasUpperB pw then 26 else 0) +
    (if hasDigitB pw then 10 else 0) + (if hasSpecialB pw then 15 else 0)

/-- The entropy contribution `min(int(entropy / 2), 30)` of source line
113, with `entropy = log2(x)` for `x = charset_size ** len(password)`:
since `int(log2(x) / 2)` is the number of positive exponents `k` with
`4 ^ k ≤ x`, capping at 30 counts only `k ≤ 30`.  This counting form is
kernel-executable; `entropyScoreOf_eq` below identifies it with
`min (Nat.log 4 x) 30`, and `c7`.. ties it to the real logarithm. -/
def entropyScoreOf (x : Nat) : Nat :=
  ((List.range 30).filter (fun k => 4 ^ (k + 1) ≤ x)).length

/-- Entropy score of a password (source lines 111-117): zero when no
class is present. -/
def entropyScoreN (pw : String) : Nat :=
  if 0 < charsetSize pw then entropyScoreOf (charsetSize pw ^ pw.length) else 0

/-- The score accumulated by all checks before clamping (the running
`score` variable of lines 38-117). -/
def preClampScore (pw : String) (infos : List String) : Int :=
  (if hasSpace pw then (-15 : Int) else 0)
    + (min (pw.length * 5) 40 : Nat)
    + (charTypes pw * 15 : Nat)
    + (if patternHit commonPatterns pw then (-20 : Int) else 0)
    + (if dictHit dictionaryWords pw then (-15 : Int) else 0)
    + (if personalHit infos pw then (-20 : Int) else 0)
    + (if hasTripleRepeat pw.data then (-10 : Int) else 0)
    + (if hasSeq pw then (-10 : Int) else 0)
    + (entropyScoreN pw : Nat)

/-- `score = max(0, min(score, 100))` (source line 123). -/
def clampScore (s : Int) : Int := max 0 (min s 100)

/-- Strength thresholds (source lines 126-140). -/
def strengthOf (s : Int) : Strength :=
  if 90 ≤ s then .Excellent
  else if 70 ≤ s then .Strong
  else if 50 ≤ s then .Moderate
  else if 30 ≤ s then .Weak
  else .VeryWeak

/-- The issues accumulated by the checks, in check order; each check
contributes its fixed message exactly when its condition fires. -/
def rawIssues (pw : String) (infos : List String) : List String :=
  (if hasSpace pw then ["Password contains spaces"] else [])
    ++ (if pw.length < minLength then
          ["Password is too short (" ++ toString pw.length ++ " characters)"] else [])
    ++ (if charTypes pw < 3 then ["Limited character variety"] else [])
    ++ (if patternHit commonPatterns pw then ["Contains common pattern or word"] else [])
    ++ (if dictHit dictionaryWords pw then ["Contains dictionary word"] else [])
    ++ (if personalHit infos pw then ["Contains personal information"] else [])
    ++ (if hasTripleRepeat pw.data then ["Contains repeated characters"] else [])
    ++ (if hasSeq pw then ["Contains sequential characters"] else [])

/-- The recommendations accumulated by the checks, appended under
exactly the same conditions as the issues. -/
def rawRecommendations (pw : String) (infos : List String) : List String :=
  (if hasSpace pw then ["Avoid using spaces in passwords"] else [])
    ++ (if pw.length < minLength then
          ["Use at least " ++ toString minLength ++ " characters"] else [])
    ++ (if charTypes pw < 3 then
          ["Include a mix of uppercase, lowercase, numbers, and special characters"] else [])
    ++ (if patternHit commonPatterns pw then ["Avoid common words or predictable patterns"] else [])
    ++ (if dictHit dictionaryWords pw then ["Avoid using common dictionary words"] else [])
    ++ (if personalHit infos pw then
          ["Avoid using personal details like name or birthdate"] else [])
    ++ (if hasTripleRepeat pw.data then
          ["Avoid repeating the same character multiple times"] else [])
    ++ (if hasSeq pw then ["Avoid sequential characters"] else [])

/-- The result record.  The entropy values of the returned dict are
floating-point reals; they are modelled exactly by the separate
functions `entropyOf` and `maxEntropyOf` below so that the record stays
kernel-executable.  The source's empty-password branch returns a dict
without the `has_spaces` key; key presence is modelled by `resultKeys`,
and this record carries `false` there as a placeholder. -/
structure AnalysisResult where
  score : Int
  strength : Strength
  issues : List String
  recommendations : List String
  generated_password : Option String
  has_spaces : Bool
deriving DecidableEq, Repr

/-- The analyzer (source lines 22-151).  `genPw` stands for the string
returned by the internal call to `generate_excellent_password()`. -/
def analyze_password (genPw : String) (pw : String) (infos : List String) : AnalysisResult :=
  if pw = "" then
    { score := 0
      strength := .Invalid
      issues := ["Password cannot be empty"]
      recommendations := ["Enter a non-empty password"]
      generated_password := none
      has_spaces := false }
  else
    { score := clampScore (preClampScore pw infos)
      strength := strengthOf (clampScore (preClampScore pw infos))
      issues :=
        if rawIssues pw infos = [] then ["No major issues detected"] else rawIssues pw infos
      recommendations :=
        if rawRecommendations pw infos = [] then ["Maintain good password practices"]
        else rawRecommendations pw infos
      generated_password :=
        if strengthOf (clampScore (preClampScore pw infos)) = .Excellent then none else some genPw
      has_spaces := hasSpace pw }

/-- Real-valued entropy of source lines 111-117:
`log2(charset_size ** len(password))` when a class is present, else 0.
(The returned dict rounds it to two decimals for display; the exact
value is modelled.) -/
noncomputable def entropyOf (pw : String) : ℝ :=
  if 0 < charsetSize pw then Real.logb 2 ((charsetSize pw ^ pw.length : ℕ) : ℝ) else 0

/-- Real-valued maximum entropy of source line 120:
`log2(max_charset_size ** len(password))`. -/
noncomputable def maxEntropyOf (pw : String) : ℝ :=
  Real.logb 2 ((maxCharsetSize ^ pw.length : ℕ) : ℝ)

/-- The keys of the dict returned by `analyze_password`, in source
order: the empty-password branch (lines 28-36) versus the normal branch
(lines 142-151). -/
def resultKeys (pw : String) : List String :=
  if pw = "" then
    ["score", "strength", "issues", "recommendations", "generated_password",
     "entropy", "max_entropy"]
  else
    ["score", "strength", "issues", "recommendations", "entropy", "max_entropy",
     "generated_password", "has_spaces"]

/-- Python's `string.punctuation`: the 32 ASCII characters with codes
33-47, 58-64, 91-96 and 123-126. -/
def isPunctChar (c : Char) : Bool :=
  (33 ≤ c.toNat && c.toNat ≤ 47) || (58 ≤ c.toNat && c.toNat ≤ 64) ||
    (91 ≤ c.toNat && c.toNat ≤ 96) || (123 ≤ c.toNat && c.toNat ≤ 126)

/-- The list form of `string.punctuation`. -/
def punctuationChars : List Char :=
  ((List.range 128).map Char.ofNat).filter isPunctChar

/-- `string.punctuation.replace(' ', '')` (source lines 161 and 169):
the generator's special alphabet. -/
def genSpecialChars : List Char := punctuationChars.filter (fun c => !(c == ' '))

/-- The generator's fill alphabet `chars` (source lines 157-162). -/
def genChars : List Char :=
  lowercaseChars ++ uppercaseChars ++ digitChars ++ genSpecialChars

/-- The possible outputs of `generate_excellent_password(n)` (source
lines 153-178): one seed character from each of the four alphabets,
`n - 4` fill characters from the union alphabet, then a shuffle (any
permutation of the multiset). -/
def GenOutput (n : Nat) (out : String) : Prop :=
  ∃ l u d s fill, l ∈ lowercaseChars ∧ u ∈ uppercaseChars ∧ d ∈ digitChars ∧
    s ∈ genSpecialChars ∧ fill.length = n - 4 ∧ (∀ c ∈ fill, c ∈ genChars) ∧
    List.Perm out.data (l :: u :: d :: s :: fill)

/-! Helper lemmas about the embedded operations. -/

theorem strengthOf_cases (s : Int) :
    strengthOf s = .VeryWeak ∨ strengthOf s = .Weak ∨ strengthOf s = .Moderate ∨
      strengthOf s = .Strong ∨ strengthOf s = .Excellent := by
  unfold strengthOf
  split_ifs <;> simp

theorem clampScore_nonneg (s : Int) : 0 ≤ clampScore s := le_max_left 0 _

theorem clampScore_le (s : Int) : clampScore s ≤ 100 :=
  max_le (by norm_num) (min_le_right s 100)

theorem clampScore_mono {s t : Int} (h : s ≤ t) : clampScore s ≤ clampScore t :=
  max_le_max le_rfl (min_le_min h le_rfl)

theorem analyze_password_of_ne (g pw : String) (infos : List String) (h : pw ≠ "") :
    analyze_password g pw infos =
      { score := clampScore (preClampScore pw infos)
        strength := strengthOf (clampScore (preClampScore pw infos))
        issues :=
          if rawIssues pw infos = [] then ["No major issues detected"] else rawIssues pw infos
        recommendations :=
          if rawRecommendations pw infos = [] then ["Maintain good password practices"]
          else rawRecommendations pw infos
        generated_password :=
          if strengthOf (clampScore (preClampScore pw infos)) = .Excellent then none
          else some g
        has_spaces := hasSpace pw } := by
  unfold analyze_password
  rw [if_neg h]

theorem raw_same_length (pw : String) (infos : List String) :
    (rawIssues pw infos).length = (rawRecommendations pw infos).length := by
  unfold rawIssues rawRecommendations
  simp only [List.length_append, apply_ite List.length, List.length_cons, List.length_nil]

/-! Claim theorems. -/

/-- C1: for every non-empty password and every personal-info list, the
score of `analyze_password` lies in `[0, 100]` and the strength is one
of the five non-Invalid labels. -/
theorem c1_score_bounds_and_labels (g pw : String) (infos : List String) (h : pw ≠ "") :
    0 ≤ (analyze_password g pw infos).score ∧ (analyze_password g pw infos).score ≤ 100 ∧
      ((analyze_password g pw infos).strength = .VeryWeak ∨
        (analyze_password g pw infos).strength = .Weak ∨
        (analyze_password g pw infos).strength = .Moderate ∨
        (analyze_password g pw infos).strength = .Strong ∨
        (analyze_password g pw infos).strength = .Excellent) := by
  rw [analyze_password_of_ne g pw infos h]
  exact ⟨clampScore_nonneg _, clampScore_le _, strengthOf_cases _⟩

/-- Witness for C1 at the concrete input `"password"`. -/
theorem c1_score_bounds_and_labels_witness :
    0 ≤ (analyze_password ("G") ("password") []).score ∧
      (analyze_password ("G") ("password") []).score ≤ 100 ∧
      ((analyze_password ("G") ("password") []).strength = .VeryWeak ∨
        (analyze_password ("G") ("password") []).strength = .Weak ∨
        (analyze_password ("G") ("password") []).strength = .Moderate ∨
        (analyze_password ("G") ("password") []).strength = .Strong ∨
        (analyze_password ("G") ("password") []).strength = .Excellent) :=
  c1_score_bounds_and_labels ("G") ("password") [] (by decide)

/-- C3, counterexample: for the empty password the biconditional
"generated_password is None iff strength is Excellent" fails — the
empty-password result has `generated_password = none` while its
strength is `Invalid`, not `Excellent`. -/
theorem c3_counterexample :
    ¬(((analyze_password ("G") ("") []).generated_password = none) ↔
      ((analyze_password ("G") ("") []).strength = .Excellent)) := by
  decide

/-- C3, amended: for every non-empty password the result satisfies
`generated_password = none` iff the strength is Excellent; for the
empty password the result has `generated_password = none` and strength
`Invalid`. -/
theorem c3_generated_iff_excellent (g pw : String) (infos : List String) :
    (pw ≠ "" →
      ((analyze_password g pw infos).generated_password = none ↔
        (analyze_password g pw infos).strength = .Excellent)) ∧
    (pw = "" →
      (analyze_password g pw infos).generated_password = none ∧
        (analyze_password g pw infos).strength = .Invalid) := by
  constructor
  · intro h
    rw [analyze_password_of_ne g pw infos h]
    by_cases he : strengthOf (clampScore (preClampScore pw infos)) = .Excellent
    · simp [he]
    · simp [he]
  · intro h
    subst h
    exact ⟨rfl, rfl⟩

/-- Witness for C3 (amended) at the concrete non-empty input
`"qwkvnd"` and at the empty input. -/
theorem c3_generated_iff_excellent_witness :
    ((analyze_password ("G") ("qwkvnd") []).generated_password = none ↔
      (analyze_password ("G") ("qwkvnd") []).strength = .Excellent) ∧
    ((analyze_password ("G") ("") []).generated_password = none ∧
      (analyze_password ("G") ("") []).strength = .Invalid) :=
  ⟨(c3_generated_iff_excellent ("G") ("qwkvnd") []).1 (by decide),
    (c3_generated_iff_excellent ("G") ("") []).2 rfl⟩

/-- C4, counterexample: the dict returned for the empty password omits
the `has_spaces` key (source lines 28-36 list only seven keys). -/
theorem c4_counterexample : ("has_spaces") ∉ resultKeys ("") := by
  decide

/-- C4, amended: every result carries the keys score, strength, issues,
recommendations, entropy, max_entropy and generated_password; the
`has_spaces` key is present exactly for non-empty passwords. -/
theorem c4_result_keys (pw : String) :
    ("score") ∈ resultKeys pw ∧ ("strength") ∈ resultKeys pw ∧
      ("issues") ∈ resultKeys pw ∧ ("recommendations") ∈ resultKeys pw ∧
      ("entropy") ∈ resultKeys pw ∧ ("max_entropy") ∈ resultKeys pw ∧
      ("generated_password") ∈ resultKeys pw ∧
      (("has_spaces") ∈ resultKeys pw ↔ pw ≠ "") := by
  unfold resultKeys
  by_cases h : pw = ""
  · rw [if_pos h]
    refine ⟨by decide, by decide, by decide, by decide, by decide, by decide, by decide, ?_⟩
    simp [h]
  · rw [if_neg h]
    refine ⟨by decide, by decide, by decide, by decide, by decide, by decide, by decide, ?_⟩
    simp [h]

/-- C10: issues and recommendations always have the same length and are
both non-empty. -/
theorem c10_issues_recommendations_paired (g pw : String) (infos : List String) :
    (analyze_password g pw infos).issues.length =
        (analyze_password g pw infos).recommendations.length ∧
      (analyze_password g pw infos).issues ≠ [] ∧
      (analyze_password g pw infos).recommendations ≠ [] := by
  by_cases h : pw = ""
  · subst h
    refine ⟨rfl, ?_, ?_⟩ <;> simp [analyze_password]
  · rw [analyze_password_of_ne g pw infos h]
    by_cases hr : rawIssues pw infos = []
    · have hr2 : rawRecommendations pw infos = [] := by
        have hl := raw_same_length pw infos
        rw [hr] at hl
        exact List.length_eq_zero.mp hl.symm
      simp only [if_pos hr, if_pos hr2]
      exact ⟨rfl, by decide, by decide⟩
    · have hr2 : rawRecommendations pw infos ≠ [] := by
        intro h2
        apply hr
        have hl := raw_same_length pw infos
        rw [h2] at hl
        exact List.length_eq_zero.mp hl
      simp only [if_neg hr, if_neg hr2]
      exact ⟨raw_same_length pw infos, hr, hr2⟩

/-- C9, counterexample: the strength computed for `"password"` with no
personal info is neither VeryWeak nor Weak (it is Moderate, score 53:
40 length + 15 variety − 20 pattern + 18 entropy). -/
theorem c9_counterexample :
    ¬((analyze_password ("G") ("password") []).strength = .VeryWeak ∨
      (analyze_password ("G") ("password") []).strength = .Weak) := by
  decide

/-- C9, amended: `analyze_password "password" []` fires the
common-pattern check (hence the −20 penalty), records the too-short
issue, reaches score 53 and strength Moderate, and carries the
generator's suggestion rather than `none`. -/
theorem c9_password_example (g : String) :
    patternHit commonPatterns ("password") = true ∧
      ("Contains common pattern or word") ∈ (analyze_password g ("password") []).issues ∧
      ("Password is too short (8 characters)") ∈ (analyze_password g ("password") []).issues ∧
      (analyze_password g ("password") []).score = 53 ∧
      (analyze_password g ("password") []).strength = .Moderate ∧
      (analyze_password g ("password") []).generated_password = some g := by
  have hne : ("password" : String) ≠ "" := by decide
  have hrec := analyze_password_of_ne g ("password") [] hne
  have hiss : (analyze_password g ("password") []).issues = rawIssues ("password") [] := by
    rw [hrec]
    rfl
  have hsc : (analyze_password g ("password") []).score =
      clampScore (preClampScore ("password") []) := by
    rw [hrec]
  have hst : (analyze_password g ("password") []).strength =
      strengthOf (clampScore (preClampScore ("password") [])) := by
    rw [hrec]
  have hgen : (analyze_password g ("password") []).generated_password = some g := by
    rw [hrec]
    rfl
  refine ⟨by decide, ?_, ?_, ?_, ?_, hgen⟩
  · rw [hiss]
    decide
  · rw [hiss]
    decide
  · rw [hsc]
    decide
  · rw [hst]
    decide

theorem firstMatchB_eq_any (f : String → Bool) (l : List String) :
    firstMatchB f l = l.any f := by
  induction l with
  | nil => rfl
  | cons p ps ih => by_cases h : f p <;> simp [firstMatchB, h, ih]

theorem patternHit_iff (pats : List String) (pw : String) :
    patternHit pats pw = true ↔ ∃ p ∈ pats, containsSub p.data (lowerStr pw) = true := by
  simp [patternHit, firstMatchB_eq_any, List.any_eq_true]

theorem dictHit_iff (words : List String) (pw : String) :
    dictHit words pw = true ↔ ∃ w ∈ words, wordSearch w.data (lowerStr pw) = true := by
  simp [dictHit, firstMatchB_eq_any, List.any_eq_true]

theorem personalHit_iff (infos : List String) (pw : String) :
    personalHit infos pw = true ↔
      ∃ s ∈ infos, s ≠ "" ∧ containsSub (s.data.map toLowerChar) (lowerStr pw) = true := by
  simp [personalHit, firstMatchB_eq_any, List.any_eq_true]

theorem count_ite_single_le (c : Prop) [Decidable c] (m msg : String) :
    (if c then [msg] else []).count m ≤ 1 := by
  by_cases h : c
  · rw [if_pos h]
    by_cases h2 : msg = m
    · simp [List.count_cons, h2]
    · simp [List.count_cons, h2]
  · rw [if_neg h]
    simp

theorem count_ite_single_ne (c : Prop) [Decidable c] {m msg : String} (h : msg ≠ m) :
    (if c then [msg] else []).count m = 0 := by
  split_ifs <;> simp [List.count_cons, h]

theorem tooShort_ne (m t : String) (hm : m.data.head? ≠ some 'P') :
    ("Password is too short (" ++ t ++ " characters)") ≠ m := by
  intro h
  apply hm
  rw [← h]
  rfl

theorem count_pattern_issue (pw : String) (infos : List String) :
    (rawIssues pw infos).count ("Contains common pattern or word") ≤ 1 := by
  unfold rawIssues
  simp only [List.count_append]
  have h1 := count_ite_single_ne (hasSpace pw = true)
    (show ("Password contains spaces") ≠ ("Contains common pattern or word") by decide)
  have h2 := count_ite_single_ne (pw.length < minLength)
    (tooShort_ne ("Contains common pattern or word") (toString pw.length) (by decide))
  have h3 := count_ite_single_ne (charTypes pw < 3)
    (show ("Limited character variety") ≠ ("Contains common pattern or word") by decide)
  have h4 := count_ite_single_le (patternHit commonPatterns pw = true)
    ("Contains common pattern or word") ("Contains common pattern or word")
  have h5 := count_ite_single_ne (dictHit dictionaryWords pw = true)
    (show ("Contains dictionary word") ≠ ("Contains common pattern or word") by decide)
  have h6 := count_ite_single_ne (personalHit infos pw = true)
    (show ("Contains personal information") ≠ ("Contains common pattern or word") by decide)
  have h7 := count_ite_single_ne (hasTripleRepeat pw.data = true)
    (show ("Contains repeated characters") ≠ ("Contains common pattern or word") by decide)
  have h8 := count_ite_single_ne (hasSeq pw = true)
    (show ("Contains sequential characters") ≠ ("Contains common pattern or word") by decide)
  omega

theorem count_dict_issue (pw : String) (infos : List String) :
    (rawIssues pw infos).count ("Contains dictionary word") ≤ 1 := by
  unfold rawIssues
  simp only [List.count_append]
  have h1 := count_ite_single_ne (hasSpace pw = true)
    (show ("Password contains spaces") ≠ ("Contains dictionary word") by decide)
  have h2 := count_ite_single_ne (pw.length < minLength)
    (tooShort_ne ("Contains dictionary word") (toString pw.length) (by decide))
  have h3 := count_ite_single_ne (charTypes pw < 3)
    (show ("Limited character variety") ≠ ("Contains dictionary word") by decide)
  have h4 := count_ite_single_ne (patternHit commonPatterns pw = true)
    (show ("Contains common pattern or word") ≠ ("Contains dictionary word") by decide)
  have h5 := count_ite_single_le (dictHit dictionaryWords pw = true)
    ("Contains dictionary word") ("Contains dictionary word")
  have h6 := count_ite_single_ne (personalHit infos pw = true)
    (show ("Contains personal information") ≠ ("Contains dictionary word") by decide)
  have h7 := count_ite_single_ne (hasTripleRepeat pw.data = true)
    (show ("Contains repeated characters") ≠ ("Contains dictionary word") by decide)
  have h8 := count_ite_single_ne (hasSeq pw = true)
    (show ("Contains sequential characters") ≠ ("Contains dictionary word") by decide)
  omega

theorem count_personal_issue (pw : String) (infos : List String) :
    (rawIssues pw infos).count ("Contains personal information") ≤ 1 := by
  unfold rawIssues
  simp only [List.count_append]
  have h1 := count_ite_single_ne (hasSpace pw = true)
    (show ("Password contains spaces") ≠ ("Contains personal information") by decide)
  have h2 := count_ite_single_ne (pw.length < minLength)
    (tooShort_ne ("Contains personal information") (toString pw.length) (by decide))
  have h3 := count_ite_single_ne (charTypes pw < 3)
    (show ("Limited character variety") ≠ ("Contains personal information") by decide)
  have h4 := count_ite_single_ne (patternHit commonPatterns pw = true)
    (show ("Contains common pattern or word") ≠ ("Contains personal information") by decide)
  have h5 := count_ite_single_ne (dictHit dictionaryWords pw = true)
    (show ("Contains dictionary word") ≠ ("Contains personal information") by decide)
  have h6 := count_ite_single_le (personalHit infos pw = true)
    ("Contains personal information") ("Contains personal information")
  have h7 := count_ite_single_ne (hasTripleRepeat pw.data = true)
    (show ("Contains repeated characters") ≠ ("Contains personal information") by decide)
  have h8 := count_ite_single_ne (hasSeq pw = true)
    (show ("Contains sequential characters") ≠ ("Contains personal information") by decide)
  omega

/-- C6: in each of the common-pattern, dictionary and personal-info
checks, the `for ... break` loop penalizes at most once for any rule
table: the penalty (−20 / −15 / −20) is applied exactly when some entry
matches, no matter how many do, and the corresponding issue message
occurs at most once in the accumulated issue list. -/
theorem c6_one_penalty_per_category (pats words infos : List String) (pw : String) :
    ((if patternHit pats pw then (-20 : Int) else 0) =
        if ∃ p ∈ pats, containsSub p.data (lowerStr pw) = true then -20 else 0) ∧
      ((if dictHit words pw then (-15 : Int) else 0) =
        if ∃ w ∈ words, wordSearch w.data (lowerStr pw) = true then -15 else 0) ∧
      ((if personalHit infos pw then (-20 : Int) else 0) =
        if ∃ s ∈ infos, s ≠ "" ∧ containsSub (s.data.map toLowerChar) (lowerStr pw) = true
          then -20 else 0) ∧
      (rawIssues pw infos).count ("Contains common pattern or word") ≤ 1 ∧
      (rawIssues pw infos).count ("Contains dictionary word") ≤ 1 ∧
      (rawIssues pw infos).count ("Contains personal information") ≤ 1 := by
  refine ⟨?_, ?_, ?_, count_pattern_issue pw infos, count_dict_issue pw infos,
    count_personal_issue pw infos⟩
  · exact if_congr (patternHit_iff pats pw) rfl rfl
  · exact if_congr (dictHit_iff words pw) rfl rfl
  · exact if_congr (personalHit_iff infos pw) rfl rfl

/-! Generator lemmas. -/

theorem lower_pred_true : ∀ c ∈ lowercaseChars, (97 ≤ c.toNat && c.toNat ≤ 122) = true := by
  decide

theorem upper_pred_true : ∀ c ∈ uppercaseChars, (65 ≤ c.toNat && c.toNat ≤ 90) = true := by
  decide

theorem digit_pred_true : ∀ c ∈ digitChars, (48 ≤ c.toNat && c.toNat ≤ 57) = true := by
  decide

theorem space_not_mem_genChars : ' ' ∉ genChars := by
  decide

theorem genOutput_facts {n : Nat} {out : String} (h : GenOutput n out) :
    out.data.length = 4 + (n - 4) ∧
      (∃ c ∈ out.data, c ∈ lowercaseChars) ∧ (∃ c ∈ out.data, c ∈ uppercaseChars) ∧
      (∃ c ∈ out.data, c ∈ digitChars) ∧ (∃ c ∈ out.data, c ∈ genSpecialChars) ∧
      ∀ c ∈ out.data, c ∈ genChars := by
  obtain ⟨l, u, d, s, fill, hl, hu, hd, hs, hfl, hfall, hperm⟩ := h
  have hmem : ∀ c : Char, c ∈ out.data ↔ c ∈ l :: u :: d :: s :: fill := fun c => hperm.mem_iff
  refine ⟨?_, ⟨l, (hmem l).2 (by simp), hl⟩, ⟨u, (hmem u).2 (by simp), hu⟩,
    ⟨d, (hmem d).2 (by simp), hd⟩, ⟨s, (hmem s).2 (by simp), hs⟩, ?_⟩
  · rw [hperm.length_eq]
    simp only [List.length_cons, hfl]
    omega
  · intro c hc
    have hc2 := (hmem c).1 hc
    simp only [List.mem_cons] at hc2
    rcases hc2 with h | h | h | h | h
    · subst h
      simp [genChars, hl]
    · subst h
      simp [genChars, hu]
    · subst h
      simp [genChars, hd]
    · subst h
      simp [genChars, hs]
    · exact hfall c h

/-- C2: every possible output of `generate_excellent_password(n)` for
`n ≥ 4` has length exactly `n`, contains at least one lowercase letter,
one uppercase letter, one digit and one character of the generator's
special alphabet (`string.punctuation` minus space), and contains no
space character. -/
theorem c2_generator_contract (n : Nat) (out : String) (hn : 4 ≤ n) (h : GenOutput n out) :
    out.length = n ∧ (∃ c ∈ out.data, c ∈ lowercaseChars) ∧
      (∃ c ∈ out.data, c ∈ uppercaseChars) ∧ (∃ c ∈ out.data, c ∈ digitChars) ∧
      (∃ c ∈ out.data, c ∈ genSpecialChars) ∧ ' ' ∉ out.data := by
  obtain ⟨hlen, h1, h2, h3, h4, hall⟩ := genOutput_facts h
  refine ⟨?_, h1, h2, h3, h4, fun hsp => space_not_mem_genChars (hall _ hsp)⟩
  show out.data.length = n
  omega

/-- Witness for C2: `"aB3!x"` is a possible output of the generator at
requested length 5 and satisfies the contract. -/
theorem c2_generator_contract_witness :
    ("aB3!x" : String).length = 5 ∧ (∃ c ∈ ("aB3!x" : String).data, c ∈ lowercaseChars) ∧
      (∃ c ∈ ("aB3!x" : String).data, c ∈ uppercaseChars) ∧
      (∃ c ∈ ("aB3!x" : String).data, c ∈ digitChars) ∧
      (∃ c ∈ ("aB3!x" : String).data, c ∈ genSpecialChars) ∧
      ' ' ∉ ("aB3!x" : String).data :=
  c2_generator_contract 5 ("aB3!x") (by norm_num)
    ⟨'a', 'B', '3', '!', ['x'], by decide, by decide, by decide, by decide, by decide,
      by decide, List.Perm.refl _⟩

/-- C5, counterexample: `"aB3_cdefghijklmn"` is a possible output of
`generate_excellent_password(16)` (seed special character `'_'` is in
`string.punctuation`), yet fed back to the analyzer it shows only 3 of
the four character classes, because `'_'` is not in the analyzer's
special class. -/
theorem c5_counterexample :
    GenOutput 16 ("aB3_cdefghijklmn") ∧ charTypes ("aB3_cdefghijklmn") ≠ 4 :=
  ⟨⟨'a', 'B', '3', '_', ("cdefghijklmn").data, by decide, by decide, by decide, by decide,
    by decide, by decide, List.Perm.refl _⟩, by decide⟩

theorem hasLowerB_of_mem {out : String} {c : Char} (hc : c ∈ out.data)
    (hl : c ∈ lowercaseChars) : hasLowerB out = true := by
  unfold hasLowerB
  rw [List.any_eq_true]
  exact ⟨c, hc, lower_pred_true c hl⟩

theorem hasUpperB_of_mem {out : String} {c : Char} (hc : c ∈ out.data)
    (hl : c ∈ uppercaseChars) : hasUpperB out = true := by
  unfold hasUpperB
  rw [List.any_eq_true]
  exact ⟨c, hc, upper_pred_true c hl⟩

theorem hasDigitB_of_mem {out : String} {c : Char} (hc : c ∈ out.data)
    (hl : c ∈ digitChars) : hasDigitB out = true := by
  unfold hasDigitB
  rw [List.any_eq_true]
  exact ⟨c, hc, digit_pred_true c hl⟩

theorem charTypes_ge_three {out : String} (h1 : hasLowerB out = true)
    (h2 : hasUpperB out = true) (h3 : hasDigitB out = true) : 3 ≤ charTypes out := by
  unfold charTypes
  rw [h1, h2, h3]
  split_ifs <;> simp_all

theorem hasSpace_eq_false {out : String} (h : ' ' ∉ out.data) : hasSpace out = false := by
  unfold hasSpace
  rw [Bool.eq_false_iff]
  intro hc
  obtain ⟨b, hb, he⟩ := List.contains_iff_exists_mem_beq.mp hc
  rw [beq_iff_eq] at he
  exact h (he ▸ hb)

theorem count_variety_issue (pw : String) (infos : List String) (hv : ¬(charTypes pw < 3)) :
    (rawIssues pw infos).count ("Limited character variety") = 0 := by
  unfold rawIssues
  simp only [List.count_append]
  have h1 := count_ite_single_ne (hasSpace pw = true)
    (show ("Password contains spaces") ≠ ("Limited character variety") by decide)
  have h2 := count_ite_single_ne (pw.length < minLength)
    (tooShort_ne ("Limited character variety") (toString pw.length) (by decide))
  have h3 : (if charTypes pw < 3 then [("Limited character variety")] else []).count
      ("Limited character variety") = 0 := by
    rw [if_neg hv]
    simp
  have h4 := count_ite_single_ne (patternHit commonPatterns pw = true)
    (show ("Contains common pattern or word") ≠ ("Limited character variety") by decide)
  have h5 := count_ite_single_ne (dictHit dictionaryWords pw = true)
    (show ("Contains dictionary word") ≠ ("Limited character variety") by decide)
  have h6 := count_ite_single_ne (personalHit infos pw = true)
    (show ("Contains personal information") ≠ ("Limited character variety") by decide)
  have h7 := count_ite_single_ne (hasTripleRepeat pw.data = true)
    (show ("Contains repeated characters") ≠ ("Limited character variety") by decide)
  have h8 := count_ite_single_ne (hasSeq pw = true)
    (show ("Contains sequential characters") ≠ ("Limited character variety") by decide)
  omega

/-- C5, amended: every possible output of `generate_excellent_password(16)`,
fed back into `analyze_password`, exhibits at least 3 of the four
character classes (the analyzer's lowercase, uppercase and digit classes
are always present; its special class can be missed because the
generator's special alphabet is a strict superset of the analyzer's),
never reports the variety issue, and does not trigger the space check. -/
theorem c5_roundtrip (g out : String) (infos : List String) (h : GenOutput 16 out) :
    3 ≤ charTypes out ∧
      ("Limited character variety") ∉ (analyze_password g out infos).issues ∧
      (analyze_password g out infos).has_spaces = false := by
  obtain ⟨hlen, ⟨cl, hcl, hcll⟩, ⟨cu, hcu, hcuu⟩, ⟨cd, hcd, hcdd⟩, _, hall⟩ := genOutput_facts h
  have hnosp : ' ' ∉ out.data := fun hsp => space_not_mem_genChars (hall _ hsp)
  have ht : 3 ≤ charTypes out :=
    charTypes_ge_three (hasLowerB_of_mem hcl hcll) (hasUpperB_of_mem hcu hcuu)
      (hasDigitB_of_mem hcd hcdd)
  have hne : out ≠ "" := by
    intro he
    rw [he] at hlen
    simp at hlen
  have hrec := analyze_password_of_ne g out infos hne
  refine ⟨ht, ?_, ?_⟩
  · have hiss : (analyze_password g out infos).issues =
        if rawIssues out infos = [] then ["No major issues detected"] else rawIssues out infos := by
      rw [hrec]
    rw [hiss]
    by_cases hri : rawIssues out infos = []
    · rw [if_pos hri]
      decide
    · rw [if_neg hri]
      exact List.count_eq_zero.mp (count_variety_issue out infos (by omega))
  · have hsp : (analyze_password g out infos).has_spaces = hasSpace out := by
      rw [hrec]
    rw [hsp]
    exact hasSpace_eq_false hnosp

/-- Witness for C5 (amended): apply it to the possible generator output
`"aB3?cdefghijklmn"` whose special seed lies in the analyzer's class. -/
theorem c5_roundtrip_witness :
    3 ≤ charTypes ("aB3?cdefghijklmn") ∧
      ("Limited character variety") ∉ (analyze_password ("G") ("aB3?cdefghijklmn") []).issues ∧
      (analyze_password ("G") ("aB3?cdefghijklmn") []).has_spaces = false :=
  c5_roundtrip ("G") ("aB3?cdefghijklmn") []
    ⟨'a', 'B', '3', '?', ("cdefghijklmn").data, by decide, by decide, by decide, by decide,
      by decide, by decide, List.Perm.refl _⟩

/-! Entropy lemmas: the counting form of the entropy score is the capped
base-4 logarithm, and that is the floor of half the base-2 logarithm. -/

theorem range_filter_lt_length (L n : Nat) :
    ((List.range n).filter (fun k => decide (k < L))).length = min L n := by
  induction n with
  | zero => simp
  | succ n ih =>
      rw [List.range_succ, List.filter_append, List.length_append, ih]
      by_cases h : n < L
      · simp only [List.filter_cons, List.filter_nil, decide_eq_true h, if_true]
        simp
        omega
      · simp only [List.filter_cons, List.filter_nil, decide_eq_false h, if_false]
        simp
        omega

theorem entropyScoreOf_eq (x : Nat) : entropyScoreOf x = min (Nat.log 4 x) 30 := by
  unfold entropyScoreOf
  have hcong : ∀ k ∈ List.range 30, (decide (4 ^ (k + 1) ≤ x)) = (decide (k < Nat.log 4 x)) := by
    intro k _
    simp only [decide_eq_decide]
    rcases Nat.eq_zero_or_pos x with hx | hx
    · subst hx
      rw [Nat.log_zero_right]
      have hp : 0 < 4 ^ (k + 1) := Nat.pos_pow_of_pos _ (by norm_num)
      omega
    · rw [Nat.pow_le_iff_le_log (by norm_num) (by omega)]
      omega
  rw [List.filter_congr hcong, range_filter_lt_length]

theorem entropyScoreOf_le (x : Nat) : entropyScoreOf x ≤ 30 := by
  rw [entropyScoreOf_eq]
  exact min_le_right _ _

theorem le_entropyScoreOf {m x : Nat} (hm : m ≤ 30) (h : 4 ^ m ≤ x) : m ≤ entropyScoreOf x := by
  rw [entropyScoreOf_eq]
  exact le_min (Nat.le_log_of_pow_le (by norm_num) h) hm

theorem logb_two_div_two (x : ℝ) : Real.logb 2 x / 2 = Real.logb 4 x := by
  unfold Real.logb
  rw [show (4 : ℝ) = 2 ^ 2 by norm_num, Real.log_pow, div_div]
  push_cast
  ring

theorem floor_half_logb (m : Nat) :
    ⌊Real.logb 2 (m : ℝ) / 2⌋ = (Nat.log 4 m : ℤ) := by
  rw [logb_two_div_two]
  rw [show (4 : ℝ) = ((4 : ℕ) : ℝ) by norm_num]
  rw [Real.floor_logb_natCast (Nat.cast_nonneg m), Int.log_natCast]

/-- C7: for every non-empty password, when some character class is
present the entropy is `log2(charset_size ^ length)` and the score gain
is `min(floor(entropy / 2), 30)` (which the analyzer computes as
`entropyScoreN`); when no class is present the entropy is 0 and the
gain is 0; and the maximum entropy is always `log2(77 ^ length)`. -/
theorem c7_entropy_formulas (pw : String) (h : pw ≠ "") :
    (0 < charsetSize pw →
      entropyOf pw = Real.logb 2 ((charsetSize pw : ℝ) ^ pw.length) ∧
        (entropyScoreN pw : ℤ) = min ⌊entropyOf pw / 2⌋ 30) ∧
      (charsetSize pw = 0 → entropyOf pw = 0 ∧ entropyScoreN pw = 0) ∧
      maxEntropyOf pw = Real.logb 2 ((77 : ℝ) ^ pw.length) := by
  refine ⟨?_, ?_, ?_⟩
  · intro hc
    unfold entropyOf entropyScoreN
    rw [if_pos hc, if_pos hc]
    constructor
    · norm_cast
    · rw [floor_half_logb (charsetSize pw ^ pw.length), entropyScoreOf_eq]
      push_cast
      rfl
  · intro hc
    unfold entropyOf entropyScoreN
    rw [if_neg (by omega), if_neg (by omega)]
    exact ⟨rfl, rfl⟩
  · unfold maxEntropyOf maxCharsetSize
    norm_cast

/-- Witness for C7 at the concrete password `"aB3"`. -/
theorem c7_entropy_formulas_witness :
    (0 < charsetSize ("aB3") →
      entropyOf ("aB3") = Real.logb 2 ((charsetSize ("aB3") : ℝ) ^ ("aB3" : String).length) ∧
        (entropyScoreN ("aB3") : ℤ) = min ⌊entropyOf ("aB3") / 2⌋ 30) ∧
      (charsetSize ("aB3") = 0 → entropyOf ("aB3") = 0 ∧ entropyScoreN ("aB3") = 0) ∧
      maxEntropyOf ("aB3") = Real.logb 2 ((77 : ℝ) ^ ("aB3" : String).length) :=
  c7_entropy_formulas ("aB3") (by decide)

/-! Monotonicity lemmas. -/

theorem charsetSize_ge_of_two_types {pw : String} (h : 2 ≤ charTypes pw) :
    25 ≤ charsetSize pw := by
  unfold charTypes at h
  unfold charsetSize
  split_ifs at h ⊢ <;> omega

theorem specialChars_not_lower : ∀ c ∈ specialChars, ¬(97 ≤ c.toNat ∧ c.toNat ≤ 122) := by
  decide

theorem lowerOnly_flags {pw : String} (hne : pw.data ≠ [])
    (h : ∀ c ∈ pw.data, 97 ≤ c.toNat ∧ c.toNat ≤ 122) :
    hasLowerB pw = true ∧ hasUpperB pw = false ∧ hasDigitB pw = false ∧
      hasSpecialB pw = false := by
  refine ⟨?_, ?_, ?_, ?_⟩
  · unfold hasLowerB
    rw [List.any_eq_true]
    obtain ⟨c, hc⟩ := List.exists_mem_of_ne_nil pw.data hne
    refine ⟨c, hc, ?_⟩
    have hcr := h c hc
    simp only [Bool.and_eq_true, decide_eq_true_eq]
    omega
  · unfold hasUpperB
    rw [List.any_eq_false]
    intro c hc
    have hcr := h c hc
    simp only [Bool.and_eq_true, decide_eq_true_eq, not_and]
    omega
  · unfold hasDigitB
    rw [List.any_eq_false]
    intro c hc
    have hcr := h c hc
    simp only [Bool.and_eq_true, decide_eq_true_eq, not_and]
    omega
  · unfold hasSpecialB
    rw [List.any_eq_false]
    intro c hc
    have hcr := h c hc
    intro hmem
    obtain ⟨b, hb, heq⟩ := List.contains_iff_exists_mem_beq.mp hmem
    rw [beq_iff_eq] at heq
    subst heq
    exact specialChars_not_lower c hb hcr

/-- C8: between two same-length passwords of length at least 12 on which
the space, pattern, dictionary, personal-info, repeat and sequence
checks all produce identical outcomes, a password presenting strictly
more character classes than an only-lowercase password scores at least
as much as the only-lowercase one. -/
theorem c8_variety_monotonicity (g1 g2 pwA pwB : String) (i1 i2 : List String)
    (hlen : pwA.length = pwB.length) (h12 : 12 ≤ pwB.length)
    (hBonly : ∀ c ∈ pwB.data, 97 ≤ c.toNat ∧ c.toNat ≤ 122)
    (hmore : charTypes pwB < charTypes pwA)
    (hsp : hasSpace pwA = hasSpace pwB)
    (hpat : patternHit commonPatterns pwA = patternHit commonPatterns pwB)
    (hdict : dictHit dictionaryWords pwA = dictHit dictionaryWords pwB)
    (hper : personalHit i1 pwA = personalHit i2 pwB)
    (hrep : hasTripleRepeat pwA.data = hasTripleRepeat pwB.data)
    (hseq : hasSeq pwA = hasSeq pwB) :
    (analyze_password g2 pwB i2).score ≤ (analyze_password g1 pwA i1).score := by
  have hBdata : pwB.data ≠ [] := by
    intro he
    have h0 : pwB.length = 0 := by
      show pwB.data.length = 0
      rw [he]
      rfl
    omega
  have hBne : pwB ≠ "" := by
    intro he
    rw [he] at hBdata
    exact hBdata rfl
  have hAne : pwA ≠ "" := by
    intro he
    rw [he] at hlen
    have h0 : (0 : Nat) = pwB.length := hlen
    omega
  obtain ⟨hL, hU, hD, hS⟩ := lowerOnly_flags hBdata hBonly
  have htB : charTypes pwB = 1 := by
    unfold charTypes
    rw [hL, hU, hD, hS]
    simp
  have hcsB : charsetSize pwB = 26 := by
    unfold charsetSize
    rw [hL, hU, hD, hS]
    simp
  have htA2 : 2 ≤ charTypes pwA := by omega
  have hcsA : 25 ≤ charsetSize pwA := charsetSize_ge_of_two_types htA2
  have heB : entropyScoreN pwB ≤ 30 := by
    unfold entropyScoreN
    split_ifs
    · exact entropyScoreOf_le _
    · omega
  have heA : 27 ≤ entropyScoreN pwA := by
    unfold entropyScoreN
    rw [if_pos (show 0 < charsetSize pwA by omega)]
    refine le_entropyScoreOf (by norm_num) ?_
    calc (4 : ℕ) ^ 27 ≤ 25 ^ 12 := by norm_num
      _ ≤ charsetSize pwA ^ 12 := Nat.pow_le_pow_left hcsA 12
      _ ≤ charsetSize pwA ^ pwA.length := Nat.pow_le_pow_right (by omega) (by omega)
  rw [analyze_password_of_ne g1 pwA i1 hAne, analyze_password_of_ne g2 pwB i2 hBne]
  show clampScore (preClampScore pwB i2) ≤ clampScore (preClampScore pwA i1)
  apply clampScore_mono
  unfold preClampScore
  rw [hsp, hpat, hdict, hper, hrep, hseq, hlen]
  omega

/-- Witness for C8 on the concrete pair `"Bdfhjlnprtv9"` (three
classes) versus `"bdfhjlnprtvb"` (lowercase only), both of length 12
with no other check firing. -/
theorem c8_variety_monotonicity_witness :
    (analyze_password ("G") ("bdfhjlnprtvb") []).score ≤
      (analyze_password ("G") ("Bdfhjlnprtv9") []).score :=
  c8_variety_monotonicity ("G") ("G") ("Bdfhjlnprtv9") ("bdfhjlnprtvb") [] []
    (by decide) (by decide) (by decide) (by decide) (by decide) (by decide) (by decide)
    (by decide) (by decide) (by decide)

end PasswordAnalyzer
